import Mathlib

/-!
Verification of the extraction-and-matching engine of an OCR résumé
analysis service.  The Python sources are shallowly embedded:

* `src/domain/value_objects/curriculum_values.py`
  (`ProfessionalLevel`, `TechnicalSkill`, `TechnicalSkillSet`,
  `ExperienceYears`, `MatchScore`), and
* `src/infrastructure/llm/transformers_service.py`
  (`TransformersIntelligenceService`: skill extraction, query parsing,
  match scoring, ranking and reasoning).

Python floats are embedded as `ℚ` (the score arithmetic uses only
decimal literals and exact divisions), Python `int` as `Int`/`Nat`,
regular expressions over the concrete patterns of the source as
explicit scanners over `List Char`, and `str.lower` as ASCII lowering
(`Char.toLower`); the taxonomy and all scanned literals are ASCII or
fixed Portuguese words given verbatim.  Python's `list.sort(key=...,
reverse=True)` is a stable descending sort and is embedded as
`List.mergeSort` with the descending comparator, which is extensionally
the same function on every input.
-/

namespace ResumeCore

/-! ### String primitives (Python `str` operations used by the source) -/

/-- ASCII case lowering of one character (models `str.lower` per char). -/
def lowerChar (c : Char) : Char := c.toLower

/-- `text.lower()` on the embedded ASCII fragment. -/
def lowerStr (s : String) : String := ⟨s.data.map lowerChar⟩

/-- `s.strip()`: drop whitespace from both ends. -/
def pyStrip (s : String) : String :=
  ⟨((s.data.dropWhile Char.isWhitespace).reverse.dropWhile Char.isWhitespace).reverse⟩

/-- One step of `str.title`: the Boolean says whether the previous
character was alphabetic (cased). -/
def titleAux : Bool → List Char → List Char
  | _, [] => []
  | prevCased, c :: cs =>
    (if c.isAlpha then (if prevCased then c.toLower else c.toUpper) else c) ::
      titleAux c.isAlpha cs

/-- Python `s.title()` on the ASCII fragment: uppercase every cased
character that follows an uncased one, lowercase the rest. -/
def pyTitle (s : String) : String := ⟨titleAux false s.data⟩

/-- Python substring test (`needle in hay` for `str`). -/
def substrB (needle : List Char) : List Char → Bool
  | [] => needle.isEmpty
  | c :: rest => needle.isPrefixOf (c :: rest) || substrB needle rest

/-- Python truthiness of an optional string field (`None` and `""` are falsy). -/
def optTruthy : Option String → Bool
  | none => false
  | some s => s ≠ ""

/-! ### Python regex word boundaries (`\b`), on the ASCII fragment -/

/-- Python `\w` on ASCII: letters, digits, underscore. -/
def isWordChar (c : Char) : Bool := c.isAlphanum || c == '_'

/-- Word-character test extended to a string edge (`none` = edge,
which counts as a non-word position). -/
def wordCharB : Option Char → Bool
  | none => false
  | some c => isWordChar c

/-- `re.search(r'\b' + re.escape(tok) + r'\b', text)` restricted to one
candidate position: `rest` is the suffix of the text starting at that
position and `prev` the character just before it.  A `\b` holds at a
junction iff exactly one side is a word character. -/
def matchesAt (tok rest : List Char) (prev : Option Char) : Bool :=
  tok.isPrefixOf rest &&
    (wordCharB prev != wordCharB tok.head?) &&
    (wordCharB tok.getLast? != wordCharB (rest.drop tok.length).head?)

/-- Scan of all start positions for the boundary-anchored literal. -/
def searchWordAux (tok : List Char) : Option Char → List Char → Bool
  | _, [] => false
  | prev, c :: rest => matchesAt tok (c :: rest) prev || searchWordAux tok (some c) rest

/-- `re.search(r'\b' + re.escape(tok) + r'\b', text) is not None`
for a nonempty literal `tok`. -/
def searchWord (tok text : List Char) : Bool := searchWordAux tok none text

/-- Claim-level reading of "occurs as a whole word delimited by
boundaries (not as a substring of a longer token)": some occurrence of
the token has, on each side, either the string edge or a non-word
character.  This is the spec's wording, stated independently of the
regex engine; the source's `\b`-anchored search is `searchWord`. -/
def delimitedAt (tok rest : List Char) (prev : Option Char) : Bool :=
  tok.isPrefixOf rest && !(wordCharB prev) && !(wordCharB (rest.drop tok.length).head?)

/-- Scan of all start positions for a plainly delimited occurrence. -/
def delimitedOccursAux (tok : List Char) : Option Char → List Char → Bool
  | _, [] => false
  | prev, c :: rest => delimitedAt tok (c :: rest) prev || delimitedOccursAux tok (some c) rest

/-- A plainly delimited whole-word occurrence anywhere in the text. -/
def delimitedOccurs (tok text : List Char) : Bool := delimitedOccursAux tok none text

/-! ### Digits and number capture -/

/-- Numeric value of a digit run (`int` of the captured group). -/
def digitsToNat (ds : List Char) : Nat := ds.foldl (fun n c => 10 * n + (c.toNat - 48)) 0

/-- `re.search(r'(\d+)', s)`: value of the leftmost maximal digit run,
`none` when the string has no digit. -/
def firstIntM : List Char → Option Nat
  | [] => none
  | c :: rest =>
    if c.isDigit then some (digitsToNat ((c :: rest).takeWhile Char.isDigit))
    else firstIntM rest

/-! ### Professional levels (`ProfessionalLevel`) -/

/-- The five levels of the `ProfessionalLevel` enum. -/
inductive ProfessionalLevel
  | JUNIOR
  | PLENO
  | SENIOR
  | ESPECIALISTA
  | UNKNOWN
deriving DecidableEq, Repr

/-- The stored display string of each level (the enum `.value`). -/
def ProfessionalLevel.value : ProfessionalLevel → String
  | .JUNIOR => "Júnior"
  | .PLENO => "Pleno"
  | .SENIOR => "Sênior"
  | .ESPECIALISTA => "Especialista"
  | .UNKNOWN => "Desconhecido"

/-- The `level_scores` dictionary of `MatchScore.calculate` together with
its `.get(level, 0)` default: `UNKNOWN` is absent and maps to `0`.
This is also the total order on levels used by the specification
(Unknown=0 < Junior=1 < Mid=2 < Senior=3 < Specialist=4). -/
def level_scores : ProfessionalLevel → Nat
  | .JUNIOR => 1
  | .PLENO => 2
  | .SENIOR => 3
  | .ESPECIALISTA => 4
  | .UNKNOWN => 0

/-! ### Experience years (`ExperienceYears`) -/

/-- `ExperienceYears(years)`: the `__post_init__` validator rejects a
negative count, otherwise the value object holds the years. -/
def ExperienceYears.create (years : Int) : Except String Nat :=
  if years < 0 then .error "Anos de experiência não pode ser negativo"
  else .ok years.toNat

/-- `ExperienceYears.get_level_suggestion`. -/
def get_level_suggestion (years : Nat) : ProfessionalLevel :=
  if years ≥ 5 then .SENIOR
  else if years ≥ 2 then .PLENO
  else if years > 0 then .JUNIOR
  else .UNKNOWN

/-! ### The year-pattern scanners of `ExperienceYears.from_text`

Each of the four regular expressions of the source is a literal/digit
pattern whose consecutive pieces start with disjoint character classes
(digits, whitespace, fixed letters, `+`), so greedy matching with no
backtracking is exact.  `searchNum` reproduces `re.search`: it tries
every start position from the left. -/

/-- Consume an exact literal. -/
def eatLit (lit cs : List Char) : Option (List Char) :=
  if lit.isPrefixOf cs then some (cs.drop lit.length) else none

/-- Consume `\s*`. -/
def eatWs (cs : List Char) : List Char := cs.dropWhile Char.isWhitespace

/-- Consume an optional single character (`c?`). -/
def eatOptChar (c : Char) : List Char → List Char
  | [] => []
  | d :: rest => if d = c then rest else d :: rest

/-- Consume `(\d+)` greedily, returning the captured value. -/
def eatDigits (cs : List Char) : Option (Nat × List Char) :=
  if cs.takeWhile Char.isDigit = [] then none
  else some (digitsToNat (cs.takeWhile Char.isDigit), cs.dropWhile Char.isDigit)

/-- `(\d+)\s*anos?\s*de\s*experiência` anchored at the current position. -/
def p1At (cs : List Char) : Option Nat := do
  let (n, r0) ← eatDigits cs
  let r1 ← eatLit "ano".data (eatWs r0)
  let r2 ← eatLit "de".data (eatWs (eatOptChar 's' r1))
  let _ ← eatLit "experiência".data (eatWs r2)
  pure n

/-- `experiência\s*de\s*(\d+)\s*anos?` anchored at the current position. -/
def p2At (cs : List Char) : Option Nat := do
  let r0 ← eatLit "experiência".data cs
  let r1 ← eatLit "de".data (eatWs r0)
  let (n, r2) ← eatDigits (eatWs r1)
  let _ ← eatLit "ano".data (eatWs r2)
  pure n

/-- `(\d+)\s*years?\s*of\s*experience` anchored at the current position. -/
def p3At (cs : List Char) : Option Nat := do
  let (n, r0) ← eatDigits cs
  let r1 ← eatLit "year".data (eatWs r0)
  let r2 ← eatLit "of".data (eatWs (eatOptChar 's' r1))
  let _ ← eatLit "experience".data (eatWs r2)
  pure n

/-- `(\d+)\+\s*anos?` anchored at the current position. -/
def p4At (cs : List Char) : Option Nat := do
  let (n, r0) ← eatDigits cs
  let r1 ← eatLit "+".data r0
  let _ ← eatLit "ano".data (eatWs r1)
  pure n

/-- `re.search` for one anchored pattern: try every start position,
leftmost first (also the final empty position, where every year
pattern fails). -/
def searchNum (f : List Char → Option Nat) : List Char → Option Nat
  | [] => f []
  | c :: rest =>
    match f (c :: rest) with
    | some n => some n
    | none => searchNum f rest

/-- The `patterns` list of `ExperienceYears.from_text`, in source order. -/
def yearPatterns : List (List Char → Option Nat) := [p1At, p2At, p3At, p4At]

/-- The `for pattern in patterns` loop: first pattern with a match wins. -/
def firstCapture : List (List Char → Option Nat) → List Char → Option Nat
  | [], _ => none
  | p :: ps, t =>
    match searchNum p t with
    | some n => some n
    | none => firstCapture ps t

/-- `ExperienceYears.from_text`: falsy (empty) text yields 0; otherwise
the first captured integer over the lower-cased text, defaulting to 0. -/
def ExperienceYears.from_text (text : String) : Nat :=
  if text = "" then 0
  else (firstCapture yearPatterns (lowerStr text).data).getD 0

/-! ### Technical skills (`TechnicalSkill`, `TechnicalSkillSet`) -/

/-- An immutable (name, category) pair.  The `__post_init__` validator
(non-blank name) never fires on the construction paths embedded here,
because the constructor below only builds skills from stripped
non-blank strings. -/
structure TechnicalSkill where
  name : String
  category : String
deriving DecidableEq, Repr

/-- `TechnicalSkill.matches`: case-insensitive name comparison. -/
def TechnicalSkill.matchesName (t : TechnicalSkill) (other : String) : Bool :=
  lowerStr t.name = lowerStr other

/-- `TechnicalSkillSet._categorize_skill`: substring tests against four
fixed keyword lists, in order. -/
def categorize_skill (skill : String) : String :=
  let skill_lower := (lowerStr skill).data
  let languages := ["python", "java", "javascript", "typescript", "c++", "c#", "go",
    "rust", "php", "ruby"]
  let frameworks := ["react", "angular", "vue", "django", "flask", "fastapi", "spring",
    "express"]
  let databases := ["postgresql", "mysql", "mongodb", "redis", "elasticsearch", "sqlite"]
  let devopsTools := ["docker", "kubernetes", "aws", "azure", "gcp", "terraform", "jenkins"]
  if languages.any (fun w => substrB w.data skill_lower) then "Linguagem de Programação"
  else if frameworks.any (fun w => substrB w.data skill_lower) then "Framework"
  else if databases.any (fun w => substrB w.data skill_lower) then "Banco de Dados"
  else if devopsTools.any (fun w => substrB w.data skill_lower) then "DevOps"
  else "Geral"

/-- One loop iteration of `TechnicalSkillSet.__init__`: skip falsy/blank
entries, otherwise insert `TechnicalSkill(skill.strip(), category)` into
the set (Python `set.add`: no effect when an equal element is present).
The accumulator keeps first-insertion order; as a set of elements it is
the Python `frozenset`. -/
def addSkill (acc : List TechnicalSkill) (sk : String) : List TechnicalSkill :=
  if pyStrip sk = "" then acc
  else
    let t : TechnicalSkill := ⟨pyStrip sk, categorize_skill sk⟩
    if t ∈ acc then acc else acc ++ [t]

/-- `TechnicalSkillSet(skills)`: fold the raw strings through `addSkill`. -/
def TechnicalSkillSet.ofList (skills : List String) : List TechnicalSkill :=
  skills.foldl addSkill []

/-- `TechnicalSkillSet.has_skill`. -/
def TechnicalSkillSet.hasSkill (set : List TechnicalSkill) (skill_name : String) : Bool :=
  set.any (fun t => t.matchesName skill_name)

/-! ### The skill taxonomy and `extract_skills` -/

/-- `TransformersIntelligenceService.technical_skills_patterns`, verbatim. -/
def technical_skills_patterns : List String :=
  ["python", "java", "javascript", "typescript", "c++", "c#", "go", "rust",
   "php", "ruby", "swift", "kotlin", "scala", "r", "matlab", "sql",
   "react", "angular", "vue", "django", "flask", "fastapi", "spring",
   "express", "nodejs", "laravel", "rails", "next.js", "nuxt",
   "postgresql", "mysql", "mongodb", "redis", "elasticsearch",
   "sqlite", "oracle", "sql server", "cassandra", "dynamodb",
   "docker", "kubernetes", "aws", "azure", "gcp", "terraform",
   "jenkins", "gitlab ci", "github actions", "ansible", "chef",
   "git", "linux", "nginx", "apache", "microservices", "api rest",
   "graphql", "machine learning", "data science", "big data",
   "pandas", "numpy", "tensorflow", "pytorch"]

/-- The `found_skills` list of `extract_skills`: taxonomy tokens that pass
the substring pre-check and the `\b`-anchored regex, title-cased, in
taxonomy order. -/
def foundSkillNames (text : String) : List String :=
  (technical_skills_patterns.filter
    (fun sk => substrB sk.data (lowerStr text).data &&
      searchWord sk.data (lowerStr text).data)).map pyTitle

/-- `TransformersIntelligenceService.extract_skills`: empty text is falsy
and yields the empty set, otherwise the found names are wrapped in a
`TechnicalSkillSet`. -/
def extract_skills (text : String) : List TechnicalSkill :=
  if text = "" then TechnicalSkillSet.ofList []
  else TechnicalSkillSet.ofList (foundSkillNames text)

/-! ### The general scorer `MatchScore.calculate`

Defined on the score value object (skills 50 / experience 30 / level
20).  It is not called from the query path; the query path has its own
scorer below.  Its level term is split out so that claims can compare
the two level rules. -/

/-- The level term of `MatchScore.calculate` (weight 0.2): full weight
when the candidate rank reaches the required rank, `0.1` when it is
lower by exactly one (`abs(...) <= 1` in the source, reached only when
the candidate is strictly lower), else `0`. -/
def calc_level_term (required_level candidate_level : ProfessionalLevel) : ℚ :=
  if required_level ≠ ProfessionalLevel.UNKNOWN then
    let req_score := level_scores required_level
    let cand_score := level_scores candidate_level
    if cand_score ≥ req_score then (0.2 : ℚ)
    else if ((req_score : Int) - (cand_score : Int)).natAbs ≤ 1 then (0.1 : ℚ)
    else 0
  else 0

/-- `MatchScore.calculate`: weighted sum of skills (0.5), experience
(0.3) and level (0.2) terms, clamped to 1.0.  The resulting value always
lies in [0, 1], so the `MatchScore` validator never fires on it. -/
def MatchScore.calculate (required_skills : List String)
    (candidate_skills : List TechnicalSkill) (required_experience : Int)
    (candidate_experience : Nat)
    (required_level candidate_level : ProfessionalLevel) : ℚ :=
  let skills_part : ℚ :=
    if required_skills ≠ [] then
      ((required_skills.filter
          (fun sk => TechnicalSkillSet.hasSkill candidate_skills sk)).length : ℚ) /
        (required_skills.length : ℚ) * (0.5 : ℚ)
    else 0
  let exp_part : ℚ :=
    if required_experience > 0 then
      if (candidate_experience : Int) ≥ required_experience then (0.3 : ℚ)
      else (candidate_experience : ℚ) / (required_experience : ℚ) * (0.3 : ℚ)
    else 0
  min (skills_part + exp_part + calc_level_term required_level candidate_level) 1

/-- The level rule as the specification words it (for every scorer):
full weight 0.2 when the record rank reaches the required rank, half
weight 0.1 at rank distance exactly 1, else 0.  Stated from the spec's
sentence, to be compared with the code's two level terms. -/
def levelRuleSpec (required_level candidate_level : ProfessionalLevel) : ℚ :=
  if level_scores candidate_level ≥ level_scores required_level then (0.2 : ℚ)
  else if ((level_scores required_level : Int) - (level_scores candidate_level : Int)).natAbs
      = 1 then (0.1 : ℚ)
  else 0

/-! ### Analysis records and query requirements -/

/-- `CurriculumAnalysis`, restricted to the fields the matching engine
reads.  `position_level` models the stored display string through the
injective enum serialization `ProfessionalLevel.value` (the only level
strings the data model produces); `experience_years` is the raw display
string (or `None`), exactly as persisted. -/
structure CurriculumAnalysis where
  document_id : String
  summary : String
  skills : List String
  experience_years : Option String
  position_level : Option ProfessionalLevel
  education : Option String
deriving DecidableEq, Repr

/-- The `requirements` dict built by `_parse_query_requirements`. -/
structure QueryRequirements where
  skills : List String
  experience_years : Nat
  level : ProfessionalLevel
  keywords : List String
deriving DecidableEq, Repr

/-- `query.split()`: split on whitespace runs, dropping empty pieces.
The accumulator carries the current word reversed. -/
def splitWsAux : List Char → List Char → List String
  | acc, [] => if acc.isEmpty then [] else [⟨acc.reverse⟩]
  | acc, c :: rest =>
    if c.isWhitespace then
      if acc.isEmpty then splitWsAux [] rest
      else (⟨acc.reverse⟩ : String) :: splitWsAux [] rest
    else splitWsAux (c :: acc) rest

/-- Python `s.split()` with no separator argument. -/
def pySplitWs (s : String) : List String := splitWsAux [] s.data

/-- `(\d+)\+?\s*anos?` anchored at the current position (the query's
experience pattern; the trailing `s?` constrains nothing). -/
def qYearsAt (cs : List Char) : Option Nat := do
  let (n, r0) ← eatDigits cs
  let _ ← eatLit "ano".data (eatWs (eatOptChar '+' r0))
  pure n

/-- `TransformersIntelligenceService._parse_query_requirements`. -/
def parse_query_requirements (query : String) : QueryRequirements :=
  let query_lower := (lowerStr query).data
  { skills := technical_skills_patterns.filter (fun sk => substrB sk.data query_lower)
    experience_years := (searchNum qYearsAt query_lower).getD 0
    level :=
      if substrB "senior".data query_lower || substrB "sênior".data query_lower then
        .SENIOR
      else if substrB "junior".data query_lower || substrB "júnior".data query_lower then
        .JUNIOR
      else if substrB "pleno".data query_lower then .PLENO
      else .UNKNOWN
    keywords := pySplitWs query }

/-! ### The query-match scorer `_calculate_match_score`

The running `score` accumulates four summands; each is given its own
definition so that the claims can speak about the individual terms. -/

/-- Skills term (weight 0.4): fraction of required skills present,
verbatim, in the lower-cased record skill names. -/
def skillsTerm (a : CurriculumAnalysis) (req : QueryRequirements) : ℚ :=
  if req.skills ≠ [] then
    ((req.skills.filter (fun sk => sk ∈ a.skills.map lowerStr)).length : ℚ) /
      (req.skills.length : ℚ) * (0.4 : ℚ)
  else 0

/-- The record years used by the experience term: the guard
`analysis.experience_years` is Python-truthy (present and non-empty)
and `re.search(r'(\d+)', ...)` finds a digit; a missing digit makes the
`int(...)` line raise inside the `try`, which the bare `except: pass`
turns into a zero contribution. -/
def parseDisplayYears : Option String → Option Nat
  | none => none
  | some s => if s = "" then none else firstIntM s.data

/-- Experience term (weight 0.3): full weight at or above the required
years, otherwise the linear ramp. -/
def expTerm (a : CurriculumAnalysis) (req : QueryRequirements) : ℚ :=
  if req.experience_years > 0 then
    match parseDisplayYears a.experience_years with
    | none => 0
    | some y =>
      if y ≥ req.experience_years then (0.3 : ℚ)
      else (y : ℚ) / (req.experience_years : ℚ) * (0.3 : ℚ)
  else 0

/-- Level term (weight 0.2): awarded only when the record has a stored
level and `ProfessionalLevel(analysis.position_level)` equals the
required level exactly. -/
def levelTerm (a : CurriculumAnalysis) (req : QueryRequirements) : ℚ :=
  if req.level ≠ ProfessionalLevel.UNKNOWN then
    match a.position_level with
    | none => 0
    | some lvl => if lvl = req.level then (0.2 : ℚ) else 0
  else 0

/-- Keyword term (weight 0.1): fraction of query keywords occurring
case-insensitively in the record summary. -/
def keywordTerm (a : CurriculumAnalysis) (req : QueryRequirements) : ℚ :=
  if req.keywords ≠ [] && a.summary ≠ "" then
    ((req.keywords.filter
        (fun kw => substrB (lowerStr kw).data (lowerStr a.summary).data)).length : ℚ) /
      (req.keywords.length : ℚ) * (0.1 : ℚ)
  else 0

/-- `TransformersIntelligenceService._calculate_match_score`: the four
summands accumulated into `score`, then `min(score, 1.0)`. -/
def calculate_match_score (a : CurriculumAnalysis) (req : QueryRequirements) : ℚ :=
  min (skillsTerm a req + expTerm a req + levelTerm a req + keywordTerm a req) 1

/-- `TransformersIntelligenceService._generate_match_reasons`. -/
def generate_match_reasons (a : CurriculumAnalysis) (req : QueryRequirements) :
    List String :=
  let skillReasons :=
    if req.skills ≠ [] then
      let matched := req.skills.filter (fun sk => sk ∈ a.skills.map lowerStr)
      if matched ≠ [] then [String.intercalate ", " matched |> ("Domínio em: " ++ ·)]
      else []
    else []
  let expReasons :=
    match a.experience_years with
    | some s => if s ≠ "" then ["Experiência: " ++ s] else []
    | none => []
  let levelReasons :=
    match a.position_level with
    | some lvl => ["Nível: " ++ lvl.value]
    | none => []
  let eduReasons :=
    match a.education with
    | some e => if e ≠ "" then ["Formação: " ++ e] else []
    | none => []
  skillReasons ++ expReasons ++ levelReasons ++ eduReasons

/-! ### Ranking and reasoning -/

/-- One entry of the `matches` list of `analyze_query_match`. -/
structure QMatch where
  document_id : String
  score : ℚ
  match_reasons : List String
  summary : String
deriving DecidableEq, Repr

/-- Two-decimal display of a score (embedding of Python's `f"{x:.2f}"`
for the narrative string; the claims only touch the fixed empty-case
narrative, so simple truncation is used for the digits). -/
def fmt2 (q : ℚ) : String :=
  let cents : Int := (q * 100).floor
  toString (cents / 100) ++ "." ++
    (let r := (cents % 100).toNat
     (if r < 10 then "0" else "") ++ toString r)

/-- `TransformersIntelligenceService._generate_analysis_reasoning`. -/
def generate_analysis_reasoning (ms : List QMatch) (query : String) : String :=
  match ms with
  | [] => "Nenhum currículo processado para análise."
  | best :: rest =>
    let r1 := "Baseado na análise da query \x27" ++ query ++ "\x27, " ++
      "o candidato mais adequado apresenta score de " ++ fmt2 best.score ++ " "
    let r2 :=
      if best.match_reasons ≠ [] then
        r1 ++ "devido a: " ++ String.intercalate "; " best.match_reasons ++ ". "
      else r1
    let r3 :=
      match rest with
      | [] => r2
      | second :: _ => r2 ++ "O segundo colocado tem score " ++ fmt2 second.score ++ ". "
    r3 ++
      (if best.score ≥ (0.8 : ℚ) then "Recomendação: Excelente candidato para a posição."
       else if best.score ≥ (0.6 : ℚ) then "Recomendação: Bom candidato, recomendo entrevista."
       else if best.score ≥ (0.4 : ℚ) then
         "Recomendação: Candidato adequado, avaliar outros fatores."
       else "Recomendação: Match parcial, considerar requisitos alternativos.")

/-- The `matches` list before sorting: one entry per analysis, in input
order. -/
def buildMatches (analyses : List CurriculumAnalysis) (req : QueryRequirements) :
    List QMatch :=
  analyses.map fun a =>
    { document_id := a.document_id
      score := calculate_match_score a req
      match_reasons := generate_match_reasons a req
      summary := a.summary }

/-- The descending comparator of `matches.sort(key=..., reverse=True)`. -/
def byScoreDesc (x y : QMatch) : Bool := decide (y.score ≤ x.score)

/-- The result dict of `analyze_query_match`. -/
structure QueryMatchResult where
  query : String
  best_matches : List QMatch
  analysis_reasoning : String
deriving Repr

/-- `TransformersIntelligenceService.analyze_query_match`: score every
record, sort stably by descending score (Python's sort is stable;
`List.mergeSort` is the extensionally equal stable sort), and build the
narrative from the sorted list. -/
def analyze_query_match (analyses : List CurriculumAnalysis) (query : String) :
    QueryMatchResult :=
  let req := parse_query_requirements query
  let sorted := (buildMatches analyses req).mergeSort byScoreDesc
  { query := query
    best_matches := sorted
    analysis_reasoning := generate_analysis_reasoning sorted query }

end ResumeCore

namespace ResumeCore

/-! ### Set-construction lemmas shared by the skill-set claims -/

/-- Elements of the fold are the seeds plus one skill per usable entry. -/
theorem mem_foldl_addSkill (l : List String) (acc : List TechnicalSkill)
    (t : TechnicalSkill) :
    t ∈ l.foldl addSkill acc ↔
      t ∈ acc ∨ ∃ s ∈ l, pyStrip s ≠ "" ∧ t = ⟨pyStrip s, categorize_skill s⟩ := by
  induction l generalizing acc with
  | nil => simp
  | cons s l ih =>
    rw [List.foldl_cons, ih]
    have hstep : t ∈ addSkill acc s ↔
        t ∈ acc ∨ (pyStrip s ≠ "" ∧ t = ⟨pyStrip s, categorize_skill s⟩) := by
      unfold addSkill
      by_cases hb : pyStrip s = ""
      · simp [hb]
      · by_cases hm : (⟨pyStrip s, categorize_skill s⟩ : TechnicalSkill) ∈ acc
        · rw [if_neg hb, if_pos hm]
          constructor
          · intro h; exact Or.inl h
          · rintro (h | ⟨-, rfl⟩)
            · exact h
            · exact hm
        · rw [if_neg hb, if_neg hm, List.mem_append, List.mem_singleton]
          constructor
          · rintro (h | rfl)
            · exact Or.inl h
            · exact Or.inr ⟨hb, rfl⟩
          · rintro (h | ⟨-, rfl⟩)
            · exact Or.inl h
            · exact Or.inr rfl
    rw [hstep]
    simp only [List.mem_cons]
    constructor
    · rintro (((h | h) | ⟨s', hs', h'⟩))
      · exact Or.inl h
      · exact Or.inr ⟨s, Or.inl rfl, h⟩
      · exact Or.inr ⟨s', Or.inr hs', h'⟩
    · rintro (h | ⟨s', hs' | hs', h'⟩)
      · exact Or.inl (Or.inl h)
      · exact Or.inl (Or.inr (hs' ▸ h'))
      · exact Or.inr ⟨s', hs', h'⟩

/-- The fold never introduces duplicate elements. -/
theorem nodup_foldl_addSkill (l : List String) (acc : List TechnicalSkill)
    (h : acc.Nodup) : (l.foldl addSkill acc).Nodup := by
  induction l generalizing acc with
  | nil => exact h
  | cons s l ih =>
    rw [List.foldl_cons]
    apply ih
    unfold addSkill
    by_cases hb : pyStrip s = ""
    · simpa [hb] using h
    · by_cases hm : (⟨pyStrip s, categorize_skill s⟩ : TechnicalSkill) ∈ acc
      · simpa [hb, hm] using h
      · simp only [if_neg hb, if_neg hm]
        exact List.Nodup.append h (List.nodup_singleton _)
          (by simpa using fun h' => hm h')

/-- Membership in a constructed skill set, in terms of the raw entries. -/
theorem mem_skillSet_ofList (l : List String) (t : TechnicalSkill) :
    t ∈ TechnicalSkillSet.ofList l ↔
      ∃ s ∈ l, pyStrip s ≠ "" ∧ t = ⟨pyStrip s, categorize_skill s⟩ := by
  unfold TechnicalSkillSet.ofList
  rw [mem_foldl_addSkill]
  simp

/-- A constructed skill set has no duplicate members. -/
theorem nodup_skillSet_ofList (l : List String) :
    (TechnicalSkillSet.ofList l).Nodup :=
  nodup_foldl_addSkill l [] (List.nodup_nil)

/-- C2 counterexample: the set constructor deduplicates on the exact
(stripped) name, not case-insensitively — `["Python", "python"]` yields
two distinct members whose names agree case-insensitively, refuting the
claimed invariant. -/
theorem c2_skillset_cex :
    (TechnicalSkillSet.ofList ["Python", "python"]).map TechnicalSkill.name =
        ["Python", "python"] ∧
      lowerStr "Python" = lowerStr "python" ∧ ("Python" : String) ≠ "python" :=
  ⟨rfl, rfl, by decide⟩

/-- C2 amended: constructing a `TechnicalSkillSet` drops empty/blank
entries (members are exactly the stripped non-blank entries with their
categories), no two members are equal (deduplication is by exact
stripped name and category, not case-insensitive), and constructing
from any reordering of the same multiset yields the same member set. -/
theorem c2_skillset (l l' : List String) (hp : l.Perm l') :
    (∀ t : TechnicalSkill, t ∈ TechnicalSkillSet.ofList l ↔
        ∃ s ∈ l, pyStrip s ≠ "" ∧ t = ⟨pyStrip s, categorize_skill s⟩) ∧
      (TechnicalSkillSet.ofList l).Nodup ∧
      (∀ t : TechnicalSkill, t ∈ TechnicalSkillSet.ofList l ↔
        t ∈ TechnicalSkillSet.ofList l') := by
  refine ⟨fun t => mem_skillSet_ofList l t, nodup_skillSet_ofList l, fun t => ?_⟩
  rw [mem_skillSet_ofList, mem_skillSet_ofList]
  constructor
  · rintro ⟨s, hs, h⟩
    exact ⟨s, hp.mem_iff.mp hs, h⟩
  · rintro ⟨s, hs, h⟩
    exact ⟨s, hp.mem_iff.mpr hs, h⟩

/-- Witness for C2 at a concrete multiset with duplicates, a blank entry
and case variants, in two different orders. -/
theorem c2_skillset_witness :
    (["Python", " ", "python", "Python"] : List String).Perm
        ["python", "Python", "Python", " "] ∧
      ((∀ t : TechnicalSkill,
          t ∈ TechnicalSkillSet.ofList ["Python", " ", "python", "Python"] ↔
            ∃ s ∈ (["Python", " ", "python", "Python"] : List String),
              pyStrip s ≠ "" ∧ t = ⟨pyStrip s, categorize_skill s⟩) ∧
        (TechnicalSkillSet.ofList ["Python", " ", "python", "Python"]).Nodup ∧
        (∀ t : TechnicalSkill,
          t ∈ TechnicalSkillSet.ofList ["Python", " ", "python", "Python"] ↔
            t ∈ TechnicalSkillSet.ofList ["python", "Python", "Python", " "])) :=
  ⟨by decide, c2_skillset _ _ (by decide)⟩

/-! ### Word-boundary search lemmas -/

/-- A boundary-anchored hit is in particular a substring hit, so the
substring pre-check of `extract_skills` never filters out a regex hit. -/
theorem substrB_of_searchWordAux (tok : List Char) :
    ∀ (prev : Option Char) (text : List Char),
      searchWordAux tok prev text = true → substrB tok text = true := by
  intro prev text
  induction text generalizing prev with
  | nil => intro h; exact absurd h (by simp [searchWordAux])
  | cons c rest ih =>
    intro h
    unfold searchWordAux at h
    rcases (Bool.or_eq_true _ _).mp h with hm | hr
    · unfold matchesAt at hm
      unfold substrB
      rw [(Bool.and_eq_true _ _).mp ((Bool.and_eq_true _ _).mp hm).1 |>.1]
      rfl
    · unfold substrB
      rw [ih (some c) hr]
      simp

/-- Facts about the taxonomy needed below: titles are pairwise distinct,
and every title is its own strip and non-blank.  All checked by
computation over the 62 tokens. -/
theorem taxonomy_title_nodup : (technical_skills_patterns.map pyTitle).Nodup := by
  decide

/-- Each taxonomy title is non-blank and unchanged by `strip`. -/
theorem taxonomy_title_stripped :
    technical_skills_patterns.all
      (fun tk => (pyStrip (pyTitle tk) == pyTitle tk) && (pyTitle tk != "")) = true := by
  decide

/-- C3 counterexample: `c++` is a taxonomy token occurring as a plainly
delimited whole word (the entire text), yet skill extraction returns
nothing: the regex `\bc\+\+\b` requires a word character after the
final `+`, so the claimed iff fails. -/
theorem c3_extract_skills_cex :
    ("c++" : String) ∈ technical_skills_patterns ∧
      delimitedOccurs "c++".data (lowerStr "c++").data = true ∧
      (extract_skills "c++").map TechnicalSkill.name = [] :=
  ⟨by decide, rfl, rfl⟩

/-- C3 amended: a taxonomy token's title-cased form is in the extracted
skill set iff the token occurs in the lower-cased text delimited by
regex word boundaries in Python's `\b` sense (a transition between a
word and a non-word position; for tokens beginning and ending in word
characters this coincides with the plain whole-word reading, but tokens
ending in `+`/`#` additionally need a word character right after);
and each taxonomy token contributes at most one member (the extracted
names are pairwise distinct). -/
theorem c3_extract_skills (text : String) (tok : String)
    (htok : tok ∈ technical_skills_patterns) :
    (pyTitle tok ∈ (extract_skills text).map TechnicalSkill.name ↔
      searchWord tok.data (lowerStr text).data = true) ∧
    ((extract_skills text).map TechnicalSkill.name).Nodup := by
  have hstrip : ∀ tk ∈ technical_skills_patterns,
      pyStrip (pyTitle tk) = pyTitle tk ∧ pyTitle tk ≠ "" := by
    intro tk hk
    have h := List.all_eq_true.mp taxonomy_title_stripped tk hk
    rcases (Bool.and_eq_true _ _).mp h with ⟨h1, h2⟩
    exact ⟨by simpa using h1, by simpa using h2⟩
  by_cases htext : text = ""
  · subst htext
    have hempty : extract_skills "" = [] := rfl
    have hsw : searchWord tok.data (lowerStr "").data = false := rfl
    constructor
    · rw [hempty, hsw]
      simp
    · rw [hempty]
      simp
  · have hext : extract_skills text = TechnicalSkillSet.ofList (foundSkillNames text) := by
      rw [extract_skills, if_neg htext]
    rw [hext]
    constructor
    · constructor
      · intro hmem
        rcases List.mem_map.mp hmem with ⟨tsk, htsk, hname⟩
        rcases (mem_skillSet_ofList _ _).mp htsk with ⟨s, hs, hsne, rfl⟩
        rcases List.mem_map.mp hs with ⟨tk', htk', rfl⟩
        rcases List.mem_filter.mp htk' with ⟨htk'mem, hpred⟩
        have hs' : pyStrip (pyTitle tk') = pyTitle tk' := (hstrip tk' htk'mem).1
        have heq : pyTitle tk' = pyTitle tok := by
          rw [← hs']; exact hname
        have : tk' = tok :=
          List.inj_on_of_nodup_map taxonomy_title_nodup htk'mem htok heq
        subst this
        exact ((Bool.and_eq_true _ _).mp hpred).2
      · intro hsw
        have hsub : substrB tok.data (lowerStr text).data = true :=
          substrB_of_searchWordAux tok.data none (lowerStr text).data hsw
        have hfilter : tok ∈ technical_skills_patterns.filter
            (fun sk => substrB sk.data (lowerStr text).data &&
              searchWord sk.data (lowerStr text).data) :=
          List.mem_filter.mpr ⟨htok, by simp [hsub, hsw]⟩
        have hfound : pyTitle tok ∈ foundSkillNames text :=
          List.mem_map_of_mem pyTitle hfilter
        have hmm : (⟨pyStrip (pyTitle tok), categorize_skill (pyTitle tok)⟩ : TechnicalSkill)
            ∈ TechnicalSkillSet.ofList (foundSkillNames text) :=
          (mem_skillSet_ofList _ _).mpr
            ⟨pyTitle tok, hfound,
              by rw [(hstrip tok htok).1]; exact (hstrip tok htok).2, rfl⟩
        exact List.mem_map.mpr ⟨_, hmm, (hstrip tok htok).1⟩
    · apply List.Nodup.map_on ?_ (nodup_skillSet_ofList _)
      intro x hx y hy hxy
      rcases (mem_skillSet_ofList _ _).mp hx with ⟨s, hs, hsne, rfl⟩
      rcases (mem_skillSet_ofList _ _).mp hy with ⟨s', hs', hsne', rfl⟩
      rcases List.mem_map.mp hs with ⟨a, ha, rfl⟩
      rcases List.mem_map.mp hs' with ⟨b, hb, rfl⟩
      have ha' := (List.mem_filter.mp ha).1
      have hb' := (List.mem_filter.mp hb).1
      have hab : pyTitle a = pyTitle b := by
        have h1 := (hstrip a ha').1
        have h2 := (hstrip b hb').1
        rw [← h1, ← h2]
        exact hxy
      have : a = b := List.inj_on_of_nodup_map taxonomy_title_nodup ha' hb' hab
      subst this
      rfl

/-- Witness for C3 at a text containing `python` as a clean whole word. -/
theorem c3_extract_skills_witness :
    ("python" : String) ∈ technical_skills_patterns ∧
      ((pyTitle "python" ∈
          (extract_skills "Python and Docker developer").map TechnicalSkill.name ↔
        searchWord "python".data (lowerStr "Python and Docker developer").data = true) ∧
      ((extract_skills "Python and Docker developer").map TechnicalSkill.name).Nodup) :=
  ⟨by decide, c3_extract_skills "Python and Docker developer" "python" (by decide)⟩

/-! ### First-match lemmas for the pattern loop -/

/-- If every pattern before index `i` fails on `t` and the `i`-th one
captures `n`, the loop returns `n`. -/
theorem firstCapture_eq_of_first (ps : List (List Char → Option Nat)) (t : List Char)
    (i : Nat) (hi : i < ps.length) (n : Nat)
    (hnone : ∀ j (hj : j < i), searchNum (ps.get ⟨j, lt_trans hj hi⟩) t = none)
    (hsome : searchNum (ps.get ⟨i, hi⟩) t = some n) :
    firstCapture ps t = some n := by
  induction ps generalizing i with
  | nil => exact absurd hi (Nat.not_lt_zero i)
  | cons p ps ih =>
    cases i with
    | zero =>
      unfold firstCapture
      rw [show (p :: ps).get ⟨0, hi⟩ = p from rfl] at hsome
      rw [hsome]
    | succ i =>
      have h0 : searchNum p t = none := hnone 0 (Nat.succ_pos i)
      unfold firstCapture
      rw [h0]
      exact ih i (Nat.lt_of_succ_lt_succ hi)
        (fun j hj => hnone (j + 1) (Nat.succ_lt_succ hj)) hsome

/-- If every pattern fails on `t`, the loop returns nothing. -/
theorem firstCapture_eq_none (ps : List (List Char → Option Nat)) (t : List Char)
    (hnone : ∀ p ∈ ps, searchNum p t = none) :
    firstCapture ps t = none := by
  induction ps with
  | nil => rfl
  | cons p ps ih =>
    unfold firstCapture
    rw [hnone p (List.mem_cons_self p ps)]
    exact ih fun q hq => hnone q (List.mem_cons_of_mem p hq)

/-- C6: experience extraction scans the four year patterns in priority
order and returns the capture of the first pattern that matches; when no
pattern matches — in particular on empty text — it returns 0; the result
is always the single capture of one pattern, never an aggregate. -/
theorem c6_from_text_first_pattern (text : String) (i : Nat)
    (hi : i < yearPatterns.length) (n : Nat)
    (hnone : ∀ j (hj : j < i),
      searchNum (yearPatterns.get ⟨j, lt_trans hj hi⟩) (lowerStr text).data = none)
    (hsome : searchNum (yearPatterns.get ⟨i, hi⟩) (lowerStr text).data = some n) :
    ExperienceYears.from_text text = n ∧
      (∀ text' : String,
        (∀ p ∈ yearPatterns, searchNum p (lowerStr text').data = none) →
          ExperienceYears.from_text text' = 0) ∧
      ExperienceYears.from_text "" = 0 := by
  refine ⟨?_, ?_, rfl⟩
  · unfold ExperienceYears.from_text
    by_cases he : text = ""
    · subst he
      have : searchNum (yearPatterns.get ⟨i, hi⟩) (lowerStr "").data = none := by
        have h4 : i < 4 := hi
        interval_cases i <;> rfl
      rw [this] at hsome
      exact absurd hsome (by simp)
    · rw [if_neg he, firstCapture_eq_of_first yearPatterns (lowerStr text).data i hi n hnone hsome]
      rfl
  · intro text' hn
    unfold ExperienceYears.from_text
    by_cases he : text' = ""
    · rw [if_pos he]
    · rw [if_neg he, firstCapture_eq_none yearPatterns (lowerStr text').data hn]
      rfl

/-- Witness for C6: pattern 1 (index 0) captures 3 from a Portuguese
"3 anos de experiência" phrase. -/
theorem c6_from_text_witness :
    searchNum (yearPatterns.get ⟨0, by norm_num [yearPatterns]⟩)
        (lowerStr "Tenho 3 anos de experiência em Python").data = some 3 ∧
      ExperienceYears.from_text "Tenho 3 anos de experiência em Python" = 3 :=
  ⟨rfl,
    (c6_from_text_first_pattern "Tenho 3 anos de experiência em Python" 0
      (by norm_num [yearPatterns]) 3
      (fun j hj => absurd hj (Nat.not_lt_zero j)) rfl).1⟩

/-- C1 counterexample: a record stored at level Especialista (rank 4)
against a required level Júnior (rank 1) satisfies "record level ≥
required level", yet the query-match level term is 0, not the claimed
full weight 0.2: the query scorer awards the weight only on exact
equality. -/
theorem c1_level_term_cex :
    level_scores ProfessionalLevel.ESPECIALISTA ≥ level_scores ProfessionalLevel.JUNIOR ∧
      levelTerm
        { document_id := "doc-a", summary := "", skills := [],
          experience_years := none, position_level := some .ESPECIALISTA,
          education := none }
        { skills := [], experience_years := 0, level := .JUNIOR, keywords := [] } = 0 ∧
      (0.2 : ℚ) ≠ 0 :=
  ⟨by decide, by decide, by norm_num⟩

/-- C1 amended: in query-match scoring the level term equals the full
weight 0.2 exactly when the record carries a stored level equal to the
required level, and 0 otherwise; the claimed graded rule (full weight
when the record rank reaches the required rank, half weight 0.1 at rank
distance exactly 1, else 0) holds for the level term of the
profile-construction scorer `MatchScore.calculate`, which the query
path does not invoke. -/
theorem c1_level_term (a : CurriculumAnalysis) (req : QueryRequirements)
    (rl cl : ProfessionalLevel) (hreq : req.level ≠ ProfessionalLevel.UNKNOWN)
    (hrl : rl ≠ ProfessionalLevel.UNKNOWN) :
    levelTerm a req =
      (match a.position_level with
       | some lvl => if lvl = req.level then (0.2 : ℚ) else 0
       | none => 0) ∧
    calc_level_term rl cl = levelRuleSpec rl cl := by
  constructor
  · unfold levelTerm
    rw [if_pos hreq]
    cases a.position_level <;> rfl
  · cases rl with
    | UNKNOWN => exact absurd rfl hrl
    | JUNIOR => cases cl <;> norm_num [calc_level_term, levelRuleSpec, level_scores] <;> decide
    | PLENO => cases cl <;> norm_num [calc_level_term, levelRuleSpec, level_scores] <;> decide
    | SENIOR => cases cl <;> norm_num [calc_level_term, levelRuleSpec, level_scores] <;> decide
    | ESPECIALISTA => cases cl <;> norm_num [calc_level_term, levelRuleSpec, level_scores] <;> decide

/-- Witness for C1 amended: required level Sênior, record level Sênior. -/
theorem c1_level_term_witness :
    ((QueryRequirements.mk ["python"] 0 .SENIOR ["python"]).level ≠
        ProfessionalLevel.UNKNOWN) ∧
      (ProfessionalLevel.PLENO ≠ ProfessionalLevel.UNKNOWN) ∧
      (levelTerm
          { document_id := "doc-b", summary := "dev", skills := ["Python"],
            experience_years := none, position_level := some .SENIOR,
            education := none }
          (QueryRequirements.mk ["python"] 0 .SENIOR ["python"]) =
        (match (some ProfessionalLevel.SENIOR : Option ProfessionalLevel) with
         | some lvl =>
           if lvl = (QueryRequirements.mk ["python"] 0 .SENIOR ["python"]).level
           then (0.2 : ℚ) else 0
         | none => 0) ∧
       calc_level_term .PLENO .SENIOR = levelRuleSpec .PLENO .SENIOR) :=
  ⟨by decide, by decide,
    c1_level_term
      { document_id := "doc-b", summary := "dev", skills := ["Python"],
        experience_years := none, position_level := some .SENIOR,
        education := none }
      (QueryRequirements.mk ["python"] 0 .SENIOR ["python"])
      .PLENO .SENIOR (by decide) (by decide)⟩

/-- C5: with a positive required-years figure and a record whose display
string parses to `y` years, the experience term is the full weight 0.3
at or above the requirement and otherwise the linear ramp
`0.3 · y / required`; the term always lies in [0, 0.3]; and the returned
score is the clamped sum of the four terms. -/
theorem c5_experience_term (a : CurriculumAnalysis) (req : QueryRequirements) (y : Nat)
    (hreq : req.experience_years > 0)
    (hy : parseDisplayYears a.experience_years = some y) :
    expTerm a req =
      (if y ≥ req.experience_years then (0.3 : ℚ)
       else (y : ℚ) / (req.experience_years : ℚ) * (0.3 : ℚ)) ∧
    0 ≤ expTerm a req ∧ expTerm a req ≤ (0.3 : ℚ) ∧
    calculate_match_score a req =
      min (skillsTerm a req + expTerm a req + levelTerm a req + keywordTerm a req) 1 := by
  have hterm : expTerm a req =
      (if y ≥ req.experience_years then (0.3 : ℚ)
       else (y : ℚ) / (req.experience_years : ℚ) * (0.3 : ℚ)) := by
    unfold expTerm
    rw [if_pos hreq, hy]
  refine ⟨hterm, ?_, ?_, rfl⟩
  · rw [hterm]
    split_ifs with h
    · norm_num
    · positivity
  · rw [hterm]
    split_ifs with h
    · exact le_refl (0.3 : ℚ)
    · have hpos : (0 : ℚ) < (req.experience_years : ℚ) := by exact_mod_cast hreq
      have hlt : (y : ℚ) ≤ (req.experience_years : ℚ) := by
        exact_mod_cast Nat.le_of_lt (Nat.lt_of_not_ge h)
      have hdiv : (y : ℚ) / (req.experience_years : ℚ) ≤ 1 :=
        (div_le_one hpos).mpr hlt
      nlinarith

/-- Witness for C5: record "4 anos" against a 3-year requirement. -/
theorem c5_experience_term_witness :
    ((QueryRequirements.mk [] 3 .UNKNOWN []).experience_years > 0) ∧
      parseDisplayYears (some "4 anos") = some 4 ∧
      (expTerm
          { document_id := "doc-c", summary := "", skills := [],
            experience_years := some "4 anos", position_level := none,
            education := none }
          (QueryRequirements.mk [] 3 .UNKNOWN []) =
        (if 4 ≥ (QueryRequirements.mk [] 3 .UNKNOWN []).experience_years then (0.3 : ℚ)
         else ((4 : Nat) : ℚ) /
            (((QueryRequirements.mk [] 3 .UNKNOWN []).experience_years : Nat) : ℚ) *
            (0.3 : ℚ))) :=
  ⟨by decide, rfl,
    (c5_experience_term
      { document_id := "doc-c", summary := "", skills := [],
        experience_years := some "4 anos", position_level := none,
        education := none }
      (QueryRequirements.mk [] 3 .UNKNOWN []) 4 (by decide) rfl).1⟩

/-- C8: with a fixed non-empty required-skill list, if record `a`'s
skill list matches (case-insensitively) a superset of the required
skills matched by record `b`'s, then `a`'s skills term is at least
`b`'s. -/
theorem c8_skills_term_mono (req : QueryRequirements) (a b : CurriculumAnalysis)
    (hne : req.skills ≠ [])
    (hsup : ∀ s ∈ req.skills, s ∈ b.skills.map lowerStr → s ∈ a.skills.map lowerStr) :
    skillsTerm b req ≤ skillsTerm a req := by
  unfold skillsTerm
  rw [if_pos hne, if_pos hne]
  have hlen : (req.skills.filter (fun sk => sk ∈ b.skills.map lowerStr)).length ≤
      (req.skills.filter (fun sk => sk ∈ a.skills.map lowerStr)).length := by
    rw [← List.countP_eq_length_filter, ← List.countP_eq_length_filter]
    apply List.countP_mono_left
    intro x hx hxb
    exact decide_eq_true (hsup x hx (of_decide_eq_true hxb))
  have hlenQ : ((req.skills.filter (fun sk => sk ∈ b.skills.map lowerStr)).length : ℚ) ≤
      ((req.skills.filter (fun sk => sk ∈ a.skills.map lowerStr)).length : ℚ) := by
    exact_mod_cast hlen
  have hL : (0 : ℚ) ≤ (req.skills.length : ℚ) := by positivity
  gcongr

/-- Witness for C8: required `["python", "docker"]`; record a matches
both, record b matches only python. -/
theorem c8_skills_term_mono_witness :
    ((QueryRequirements.mk ["python", "docker"] 0 .UNKNOWN []).skills ≠ []) ∧
      (∀ s ∈ (QueryRequirements.mk ["python", "docker"] 0 .UNKNOWN []).skills,
        s ∈ (["Python"] : List String).map lowerStr →
          s ∈ (["Python", "Docker"] : List String).map lowerStr) ∧
      skillsTerm
          { document_id := "doc-e", summary := "", skills := ["Python"],
            experience_years := none, position_level := none, education := none }
          (QueryRequirements.mk ["python", "docker"] 0 .UNKNOWN []) ≤
        skillsTerm
          { document_id := "doc-d", summary := "", skills := ["Python", "Docker"],
            experience_years := none, position_level := none, education := none }
          (QueryRequirements.mk ["python", "docker"] 0 .UNKNOWN []) :=
  ⟨by decide, by decide,
    c8_skills_term_mono (QueryRequirements.mk ["python", "docker"] 0 .UNKNOWN [])
      { document_id := "doc-d", summary := "", skills := ["Python", "Docker"],
        experience_years := none, position_level := none, education := none }
      { document_id := "doc-e", summary := "", skills := ["Python"],
        experience_years := none, position_level := none, education := none }
      (by decide) (by decide)⟩

/-! ### Score bounds and sort facts shared by the ranking claims -/

/-- Every summand of the query-match score is non-negative. -/
theorem terms_nonneg (a : CurriculumAnalysis) (req : QueryRequirements) :
    0 ≤ skillsTerm a req ∧ 0 ≤ expTerm a req ∧ 0 ≤ levelTerm a req ∧
      0 ≤ keywordTerm a req := by
  refine ⟨?_, ?_, ?_, ?_⟩
  · unfold skillsTerm
    split_ifs
    · positivity
    · exact le_refl 0
  · unfold expTerm
    split_ifs with h
    · cases hpd : parseDisplayYears a.experience_years with
      | none => exact le_refl 0
      | some y =>
        dsimp only
        split_ifs
        · norm_num
        · positivity
    · exact le_refl 0
  · unfold levelTerm
    split_ifs
    · cases a.position_level with
      | none => exact le_refl 0
      | some lvl =>
        dsimp only
        split_ifs
        · norm_num
        · exact le_refl 0
    · exact le_refl 0
  · unfold keywordTerm
    split_ifs
    · positivity
    · exact le_refl 0

/-- The returned query-match score always lies in [0, 1]. -/
theorem calculate_match_score_bounds (a : CurriculumAnalysis) (req : QueryRequirements) :
    0 ≤ calculate_match_score a req ∧ calculate_match_score a req ≤ 1 := by
  obtain ⟨h1, h2, h3, h4⟩ := terms_nonneg a req
  unfold calculate_match_score
  constructor
  · apply le_min _ zero_le_one
    linarith
  · exact min_le_right _ _

/-- The descending comparator is transitive. -/
theorem byScoreDesc_trans (a b c : QMatch) :
    byScoreDesc a b → byScoreDesc b c → byScoreDesc a c := by
  intro hab hbc
  exact decide_eq_true (le_trans (of_decide_eq_true hbc) (of_decide_eq_true hab))

/-- The descending comparator is total. -/
theorem byScoreDesc_total (a b : QMatch) : byScoreDesc a b || byScoreDesc b a := by
  unfold byScoreDesc
  rcases le_total b.score a.score with h | h <;> simp [h]

/-- C9: ranking and reasoning over an empty record list yields the empty
match list and the fixed "no profiles processed" narrative, with no top
or second citation and no error. -/
theorem c9_empty_ranking (query : String) :
    (analyze_query_match [] query).best_matches = [] ∧
      (analyze_query_match [] query).analysis_reasoning =
        "Nenhum currículo processado para análise." := by
  constructor <;>
    simp [analyze_query_match, buildMatches, generate_analysis_reasoning]

/-- C10: for every record list and query, `analyze_query_match` returns
(totally, never raising) exactly one entry per input record — a
permutation of the per-record entries built in input order, each
carrying that record's document id and summary — and every entry's
score lies in [0.0, 1.0]; this includes records with empty skill lists,
absent levels, and absent or digit-free experience display strings,
whose failed parse contributes zero instead of raising. -/
theorem c10_match_entries_safe (analyses : List CurriculumAnalysis) (query : String) :
    (analyze_query_match analyses query).best_matches.Perm
        (analyses.map (fun a =>
          { document_id := a.document_id
            score := calculate_match_score a (parse_query_requirements query)
            match_reasons := generate_match_reasons a (parse_query_requirements query)
            summary := a.summary })) ∧
      ∀ m ∈ (analyze_query_match analyses query).best_matches,
        0 ≤ m.score ∧ m.score ≤ 1 := by
  constructor
  · exact List.mergeSort_perm (buildMatches analyses (parse_query_requirements query))
      byScoreDesc
  · intro m hm
    have hm' : m ∈ buildMatches analyses (parse_query_requirements query) :=
      List.mem_mergeSort.mp hm
    rcases List.mem_map.mp hm' with ⟨a, -, rfl⟩
    exact calculate_match_score_bounds a (parse_query_requirements query)

/-- C4: the ranked list is sorted in descending score order; entries
with any given score appear in exactly the order their records appeared
in the input list (stable tie-break); and the function is deterministic
— equal inputs give the identical output. -/
theorem c4_ranking_sorted_stable (analyses : List CurriculumAnalysis) (query : String) :
    List.Pairwise (fun x y : QMatch => y.score ≤ x.score)
        (analyze_query_match analyses query).best_matches ∧
      (∀ s : ℚ,
        (analyze_query_match analyses query).best_matches.filter
            (fun m => decide (m.score = s)) =
          (buildMatches analyses (parse_query_requirements query)).filter
            (fun m => decide (m.score = s))) ∧
      analyze_query_match analyses query = analyze_query_match analyses query := by
  refine ⟨?_, ?_, rfl⟩
  · have hs := List.sorted_mergeSort byScoreDesc_trans byScoreDesc_total
      (buildMatches analyses (parse_query_requirements query))
    exact hs.imp fun h => of_decide_eq_true h
  · intro s
    have hsubl : List.Sublist
        ((buildMatches analyses (parse_query_requirements query)).filter
          (fun m => decide (m.score = s)))
        (buildMatches analyses (parse_query_requirements query)) :=
      List.filter_sublist _
    have hpair : ((buildMatches analyses (parse_query_requirements query)).filter
        (fun m => decide (m.score = s))).Pairwise (fun x y => byScoreDesc x y) := by
      apply List.pairwise_of_forall_mem_list
      intro x hx y hy
      have hxs : x.score = s := of_decide_eq_true (List.mem_filter.mp hx).2
      have hys : y.score = s := of_decide_eq_true (List.mem_filter.mp hy).2
      show decide (y.score ≤ x.score) = true
      rw [hxs, hys]
      exact decide_eq_true (le_refl s)
    have hsub2 := List.sublist_mergeSort byScoreDesc_trans byScoreDesc_total hpair hsubl
    have hff : ((buildMatches analyses (parse_query_requirements query)).filter
        (fun m => decide (m.score = s))).filter (fun m => decide (m.score = s)) =
        (buildMatches analyses (parse_query_requirements query)).filter
          (fun m => decide (m.score = s)) :=
      List.filter_eq_self.mpr fun a ha => (List.mem_filter.mp ha).2
    have hfil := hff ▸ List.Sublist.filter (fun m : QMatch => decide (m.score = s)) hsub2
    have hperm := (List.mergeSort_perm (buildMatches analyses (parse_query_requirements query))
      byScoreDesc).filter (fun m => decide (m.score = s))
    exact (hfil.eq_of_length hperm.length_eq.symm).symm

/-- C7: every non-negative years count constructs and is classified by the
0 / [1,2) / [2,5) / [5,∞) thresholds; every negative count is rejected. -/
theorem c7_experience_years (n : Nat) (m : Int) (hm : m < 0) :
    ExperienceYears.create (n : Int) = .ok n ∧
    get_level_suggestion n =
      (if n = 0 then .UNKNOWN
       else if n < 2 then .JUNIOR
       else if n < 5 then .PLENO
       else .SENIOR) ∧
    ExperienceYears.create m = .error "Anos de experiência não pode ser negativo" := by
  refine ⟨?_, ?_, ?_⟩
  · simp [ExperienceYears.create]
  · unfold get_level_suggestion
    rcases Nat.lt_or_ge n 1 with h1 | h1
    · interval_cases n
      rfl
    · rcases Nat.lt_or_ge n 2 with h2 | h2
      · interval_cases n
        rfl
      · rcases Nat.lt_or_ge n 5 with h5 | h5
        · interval_cases n <;> rfl
        · have : ¬ n = 0 := by omega
          have : ¬ n < 2 := by omega
          have : ¬ n < 5 := by omega
          simp [*, Nat.le_of_lt, h5]
  · simp [ExperienceYears.create, hm]

/-- Witness for C7 at `n = 3`, `m = -1`. -/
theorem c7_experience_years_witness :
    (-1 : Int) < 0 ∧
      (ExperienceYears.create ((3 : Nat) : Int) = .ok 3 ∧
        get_level_suggestion 3 =
          (if 3 = 0 then .UNKNOWN
           else if 3 < 2 then .JUNIOR
           else if 3 < 5 then .PLENO
           else .SENIOR) ∧
        ExperienceYears.create (-1) = .error "Anos de experiência não pode ser negativo") :=
  ⟨by decide, c7_experience_years 3 (-1) (by decide)⟩

end ResumeCore
